/-
Verification of the Browser Artifact Synthesis subsystem
(src/generators/browser_data.py, src/utils/helpers.py, src/config.py).

Shallow embedding conventions:
* A Python naive `datetime` is represented by an integer: the wall-clock
  reading expressed as microseconds since 1970-01-01T00:00:00 (type ℤ).
* CPython computes both timestamp codecs through IEEE-754 double arithmetic
  (`timedelta.total_seconds`, `datetime.timestamp`, and `float * int`).
  We model a correctly rounded binary64 operation by `rnd : ℚ → ℚ`
  (round to nearest, ties to even, 53-bit significand).  The model covers
  the normal range of doubles, which contains every value these codecs
  produce; subnormal/overflow behaviour is never reached by the code.
* Python `random.randint`, `random.randrange`, `random.choice` and
  `random.choices` are modelled by total functions taking an extra draw
  argument `r : ℕ`; every value the Python call can return is reachable
  for some `r`, and only such values are reachable.
* `dict`s are modelled as association lists in insertion order, matching
  Python's guaranteed iteration order.
* The SQLite stores are modelled as in-memory tables (lists of row
  records); the filesystem is a map from path strings to stored tables.
-/
import Mathlib

namespace SandboxPopulator

/-! ### Binary64 rounding model

`rne q` rounds the rational `q` to the nearest integer, ties to even.
`rnd q` rounds `q` to the nearest binary64 value (normal range):
the significand is scaled to `[2^52, 2^53)`, rounded with `rne`, and
scaled back. -/

/-- Round a rational to the nearest integer, ties going to the even one. -/
def rne (q : ℚ) : ℤ :=
  let n := ⌊q⌋
  let f := q - n
  if f < 1/2 then n else if 1/2 < f then n + 1 else if 2 ∣ n then n else n + 1

/-- Ceiling of log₂ for rationals `1 ≤ r`. -/
def ceilLog2 (r : ℚ) : ℤ :=
  let e := Nat.log 2 ⌊r⌋₊
  if (2 : ℚ) ^ e = r then (e : ℤ) else (e : ℤ) + 1

/-- Floor of log₂ for positive rationals. -/
def floorLog2 (q : ℚ) : ℤ :=
  if 1 ≤ q then (Nat.log 2 ⌊q⌋₊ : ℤ) else -ceilLog2 q⁻¹

/-- Round a nonnegative rational to the nearest binary64 value. -/
def rndPos (q : ℚ) : ℚ :=
  let k : ℤ := 52 - floorLog2 q
  (rne (q * (2 : ℚ) ^ k) : ℚ) / (2 : ℚ) ^ k

/-- Round a rational to the nearest binary64 value (sign-symmetric). -/
def rnd (q : ℚ) : ℚ := if q < 0 then -rndPos (-q) else rndPos q

/-- Truncation toward zero, the semantics of Python `int(float)`. -/
def itrunc (q : ℚ) : ℤ := if q < 0 then -⌊-q⌋ else ⌊q⌋

theorem rne_intCast (n : ℤ) : rne (n : ℚ) = n := by
  simp [rne]

theorem itrunc_intCast (n : ℤ) : itrunc (n : ℚ) = n := by
  unfold itrunc
  split
  · rename_i h
    rw [← Int.cast_neg, Int.floor_intCast]; omega
  · rw [Int.floor_intCast]

/-- If scaling `q` by the ulp-exponent lands on an integer, `q` is exactly
representable and rounding returns it unchanged. -/
theorem rndPos_eq_self (q : ℚ) (n : ℤ)
    (h : q * (2 : ℚ) ^ ((52 : ℤ) - floorLog2 q) = (n : ℚ)) : rndPos q = q := by
  have h2 : (2 : ℚ) ^ ((52 : ℤ) - floorLog2 q) ≠ 0 := zpow_ne_zero _ two_ne_zero
  simp only [rndPos]
  rw [h, rne_intCast, eq_comm, eq_div_iff h2, ← h, mul_comm]

theorem floorLog2_natCast (m : ℕ) (hm : 0 < m) :
    floorLog2 (m : ℚ) = Nat.log 2 m := by
  unfold floorLog2
  rw [if_pos (by exact_mod_cast hm), Nat.floor_natCast]

/-- Every natural number that is a multiple of `2^j` and below `2^(53+j)`
is an exact binary64 value. -/
theorem rndPos_natCast (m j : ℕ) (hd : 2 ^ j ∣ m) (hub : m < 2 ^ (53 + j)) :
    rndPos (m : ℚ) = m := by
  rcases Nat.eq_zero_or_pos m with hm | hm
  · subst hm
    apply rndPos_eq_self _ 0
    simp
  obtain ⟨m', hm'⟩ := hd
  have hlog : Nat.log 2 m ≤ 52 + j := by
    by_contra hcon
    push_neg at hcon
    have h1 : 2 ^ (53 + j) ≤ 2 ^ Nat.log 2 m :=
      Nat.pow_le_pow_right (by norm_num) (by omega)
    have h2 : 2 ^ Nat.log 2 m ≤ m := Nat.pow_log_le_self 2 (by omega)
    omega
  apply rndPos_eq_self _ ((m' : ℤ) * 2 ^ (52 + j - Nat.log 2 m))
  rw [floorLog2_natCast m hm]
  have hexp : (52 : ℤ) - Nat.log 2 m = ((52 + j - Nat.log 2 m : ℕ) : ℤ) - (j : ℤ) := by
    omega
  rw [hexp, zpow_sub₀ (two_ne_zero), zpow_natCast, zpow_natCast]
  push_cast [hm']
  have h2j : ((2 : ℚ) ^ j) ≠ 0 := pow_ne_zero _ two_ne_zero
  field_simp
  ring

/-- Exact-representability of integers (sign-symmetric form). -/
theorem rnd_intCast (n : ℤ) (j : ℕ) (hd : (2 : ℤ) ^ j ∣ n)
    (hub : n.natAbs < 2 ^ (53 + j)) : rnd (n : ℚ) = n := by
  have key : ∀ m : ℕ, 2 ^ j ∣ m → m < 2 ^ (53 + j) → rndPos (m : ℚ) = m :=
    fun m h1 h2 => rndPos_natCast m j h1 h2
  have hd' : 2 ^ j ∣ n.natAbs := by
    have h := Int.natAbs_dvd_natAbs.mpr hd
    simpa [Int.natAbs_pow] using h
  have hkey := key n.natAbs hd' hub
  unfold rnd
  rcases lt_or_le n 0 with hn | hn
  · have habs : ((n.natAbs : ℕ) : ℚ) = -(n : ℚ) := by
      have h2 : (n.natAbs : ℤ) = -n := by omega
      calc ((n.natAbs : ℕ) : ℚ) = (((n.natAbs : ℤ)) : ℚ) := by
            norm_cast
            rw [Int.abs_eq_natAbs]
            rfl
        _ = ((-n : ℤ) : ℚ) := by rw [h2]
        _ = -(n : ℚ) := by push_cast; ring
    rw [if_pos (by exact_mod_cast hn), ← habs, hkey, habs]
    ring
  · have habs : ((n.natAbs : ℕ) : ℚ) = (n : ℚ) := by
      have h2 : (n.natAbs : ℤ) = n := by omega
      calc ((n.natAbs : ℕ) : ℚ) = (((n.natAbs : ℤ)) : ℚ) := by
            norm_cast
            rw [Int.abs_eq_natAbs]
            rfl
        _ = (n : ℚ) := by rw [h2]
    rw [if_neg (by exact not_lt.mpr (by exact_mod_cast hn)), ← habs, hkey]

/-! ### Timestamp codecs (src/utils/helpers.py)

`chrome_timestamp(dt)` is `int((dt - datetime(1601,1,1)).total_seconds() * 1_000_000)`.
`timedelta.total_seconds` computes the exact integer microsecond content of
the delta and divides it by `10**6` in float; the multiplication by
`1_000_000` is a second float operation; `int` truncates toward zero.

`firefox_timestamp(dt)` is `int(dt.timestamp() * 1_000_000)`.  For a naive
datetime, CPython's `timestamp` interprets the wall-clock reading in the
platform's local timezone: it returns `mktime`-style integer epoch seconds
plus `microsecond / 1e6` added in float.  We model the environment's UTC
offset as an explicit argument `tzOffset` (in seconds, east positive),
which is exact for fixed-offset timezones such as TZ=UTC. -/

/-- Microseconds from 1601-01-01 to 1970-01-01. -/
def epoch1601Micros : ℤ := 11644473600000000

/-- Chromium-family codec: `t` is the naive wall-clock reading in
microseconds since 1970. -/
def chrome_timestamp (t : ℤ) : ℤ :=
  let D : ℤ := t + epoch1601Micros
  itrunc (rnd (rnd ((D : ℚ) / 1000000) * 1000000))

/-- Gecko-family codec: `t` is the naive wall-clock reading in microseconds
since 1970; `tzOffset` is the environment's local UTC offset in seconds. -/
def firefox_timestamp (t tzOffset : ℤ) : ℤ :=
  let s : ℤ := t / 1000000 - tzOffset
  let μ : ℤ := t % 1000000
  itrunc (rnd (rnd (rnd (s : ℚ) + rnd ((μ : ℚ) / 1000000)) * 1000000))

/-! ### Evaluation lemmas for the rounding model -/

theorem rnd_of_nonneg {q : ℚ} (h : 0 ≤ q) : rnd q = rndPos q :=
  if_neg (not_lt.mpr h)

theorem floorLog2_eval (q : ℚ) (m e : ℕ) (h1 : 1 ≤ q) (h2 : ⌊q⌋₊ = m)
    (h3 : Nat.log 2 m = e) : floorLog2 q = e := by
  unfold floorLog2
  rw [if_pos h1, h2, h3]

theorem rne_eq_high (q : ℚ) (n : ℤ) (h1 : ⌊q⌋ = n) (h2 : 1/2 < q - n) :
    rne q = n + 1 := by
  simp only [rne, h1]
  rw [if_neg (by linarith), if_pos h2]

theorem rne_eq_low (q : ℚ) (n : ℤ) (h1 : ⌊q⌋ = n) (h2 : q - n < 1/2) :
    rne q = n := by
  simp only [rne, h1]
  rw [if_pos h2]

theorem rndPos_eval (q v : ℚ) (e n : ℤ) (he : floorLog2 q = e)
    (hn : rne (q * (2 : ℚ) ^ ((52 : ℤ) - e)) = n)
    (hv : (n : ℚ) / (2 : ℚ) ^ ((52 : ℤ) - e) = v) : rndPos q = v := by
  simp only [rndPos, he, hn, hv]

/-! ### Exactness of the codecs on whole-second instants in float range -/

/-- `chrome_timestamp` returns the exact 1601-epoch microsecond count for
every whole-second instant whose microsecond count is below `2^59`
(far beyond the last representable `datetime`, year 9999). -/
theorem chrome_timestamp_exact (t : ℤ)
    (h1 : (t + epoch1601Micros) % 1000000 = 0)
    (h2 : (t + epoch1601Micros).natAbs < 2 ^ 59) :
    chrome_timestamp t = t + epoch1601Micros := by
  simp only [chrome_timestamp]
  set D : ℤ := t + epoch1601Micros with hD
  set s : ℤ := D / 1000000 with hs
  have hsD : s * 1000000 = D := by omega
  have hq : (D : ℚ) / 1000000 = (s : ℚ) := by
    rw [div_eq_iff (by norm_num)]
    exact_mod_cast congrArg (fun z : ℤ => (z : ℚ)) hsD.symm
  have hs_abs : s.natAbs < 2 ^ 53 := by
    have hprod : s.natAbs * 1000000 = D.natAbs := by
      rw [← hsD, Int.natAbs_mul]
      norm_num
    have h59 : D.natAbs < 576460752303423488 := by exact_mod_cast h2
    have : s.natAbs < 9007199254740992 := by omega
    exact_mod_cast this
  rw [hq, rnd_intCast s 0 (by norm_num) (by simpa using hs_abs)]
  have hmul : (s : ℚ) * 1000000 = (D : ℚ) := by
    exact_mod_cast congrArg (fun z : ℤ => (z : ℚ)) hsD
  have h64 : (2 : ℤ) ^ 6 ∣ D := ⟨s * 15625, by omega⟩
  rw [hmul, rnd_intCast D 6 h64 (by exact_mod_cast h2), itrunc_intCast]

/-- `firefox_timestamp` returns `t` minus the environment's UTC offset (in
microseconds) for every whole-second instant within float-exact range: the
codec is exact relative to the Unix epoch only when the offset is zero. -/
theorem firefox_timestamp_exact (t tzOffset : ℤ)
    (h1 : t % 1000000 = 0)
    (h2 : (t - tzOffset * 1000000).natAbs < 2 ^ 59) :
    firefox_timestamp t tzOffset = t - tzOffset * 1000000 := by
  simp only [firefox_timestamp]
  set s : ℤ := t / 1000000 - tzOffset with hs
  have hsD : s * 1000000 = t - tzOffset * 1000000 := by omega
  have hμ : ((t % 1000000 : ℤ) : ℚ) / 1000000 = 0 := by
    rw [h1]
    norm_num
  have hrnd0 : rnd ((0 : ℚ)) = 0 := by
    have := rnd_intCast 0 0 (by norm_num) (by norm_num)
    simpa using this
  have hs_abs : s.natAbs < 2 ^ 53 := by
    have hprod : s.natAbs * 1000000 = (t - tzOffset * 1000000).natAbs := by
      rw [← hsD, Int.natAbs_mul]
      norm_num
    have h59 : (t - tzOffset * 1000000).natAbs < 576460752303423488 := by
      exact_mod_cast h2
    have : s.natAbs < 9007199254740992 := by omega
    exact_mod_cast this
  rw [hμ, hrnd0, rnd_intCast s 0 (by norm_num) (by simpa using hs_abs), add_zero,
    rnd_intCast s 0 (by norm_num) (by simpa using hs_abs)]
  have hmul : (s : ℚ) * 1000000 = ((t - tzOffset * 1000000 : ℤ) : ℚ) := by
    exact_mod_cast congrArg (fun z : ℤ => (z : ℚ)) hsD
  have h64 : (2 : ℤ) ^ 6 ∣ t - tzOffset * 1000000 := ⟨s * 15625, by omega⟩
  rw [hmul, rnd_intCast _ 6 h64 (by exact_mod_cast h2), itrunc_intCast]

/-! ### Python string helpers used by the generators -/

/-- Prepend a character to the first piece of a split result. -/
def consHead (c : Char) : List (List Char) → List (List Char)
  | [] => [[c]]
  | h :: t => (c :: h) :: t

/-- Python `s.split("//")`: split at non-overlapping occurrences of `//`,
scanning left to right. -/
def splitDoubleSlash : List Char → List (List Char)
  | [] => [[]]
  | [c] => [[c]]
  | c :: c2 :: rest =>
    if c = '/' ∧ c2 = '/' then [] :: splitDoubleSlash rest
    else consHead c (splitDoubleSlash (c2 :: rest))

/-- Python `s.split(".")`. -/
def splitDot : List Char → List (List Char)
  | [] => [[]]
  | c :: rest =>
    if c = '.' then [] :: splitDot rest
    else consHead c (splitDot rest)

/-- The reverse-host computation of `_write_firefox_history_db`:
`".".join(url.split("//")[-1].split(".")[::-1])`.  Python `[-1]` on a
split result is total because `split` never returns an empty list. -/
def revHost (url : String) : String :=
  String.mk (List.intercalate ['.']
    ((splitDot ((splitDoubleSlash url.data).getLastD [])).reverse))

/-- Modelled from the spec: the URL's host (the text between the scheme
separator and the first slash) with its dot-separated labels reversed and
dot-joined.  Used only as the comparand for the rev_host claim. -/
def specRevHost (url : String) : String :=
  String.mk (List.intercalate ['.']
    ((splitDot (((splitDoubleSlash url.data).getLastD []).takeWhile (· ≠ '/'))).reverse))

/-- Boolean prefix test on character lists. -/
def isPrefixOfC : List Char → List Char → Bool
  | [], _ => true
  | _ :: _, [] => false
  | a :: as, b :: bs => a == b && isPrefixOfC as bs

/-- Python substring containment `needle in hay`. -/
def containsC : List Char → List Char → Bool
  | [], needle => isPrefixOfC needle []
  | h :: t, needle => isPrefixOfC needle (h :: t) || containsC t needle

/-- Python `str.capitalize`: first character upper-cased, rest lowered. -/
def pyCapitalize : List Char → List Char
  | [] => []
  | c :: t => c.toUpper :: t.map Char.toLower

/-! ### Data model and random primitives -/

/-- An entry of the browsing-history timeline (`ActivityEvent`). -/
structure ActivityEvent where
  url : String
  title : String
  visitTime : ℤ
  visitCount : ℕ
  typedCount : ℕ
deriving DecidableEq

/-- Python `random.randint(lo, hi)`, both bounds inclusive: exactly the
values `lo..hi` are reachable over all draws `r`. -/
def pyRandint (lo hi : ℕ) (r : ℕ) : ℕ := lo + r % (hi - lo + 1)

/-- Python `random.randrange(n)`. -/
def pyRandrange (n : ℕ) (r : ℕ) : ℕ := r % n

/-- Python `random.choice(xs)`: IndexError (`none`) on an empty sequence. -/
def pyChoice {α : Type} (xs : List α) (r : ℕ) : Option α :=
  xs.get? (r % xs.length)

/-- Cumulative-bucket lookup behind `random.choices`. -/
def weightedPick {α : Type} : List (α × ℕ) → ℕ → Option α
  | [], _ => none
  | (a, w) :: rest, k => if k < w then some a else weightedPick rest (k - w)

/-- Python `random.choices(population, weights=w, k=1)[0]`. -/
def pyChoices {α : Type} (pairs : List (α × ℕ)) (r : ℕ) : Option α :=
  let total := (pairs.map (·.2)).sum
  if total = 0 then none else weightedPick pairs (r % total)

/-! ### Activity Timeline Synthesizer (`generate_browsing_history`) -/

/-- The hard-coded category weights of `generate_browsing_history`. -/
def siteWeights : List (String × ℕ) :=
  [("work", 35), ("social", 15), ("news", 20), ("finance", 10),
   ("shopping", 10), ("entertainment", 8), ("email", 2)]

/-- The fixed page-path suffixes. -/
def pathChoices : List String :=
  ["", "/dashboard", "/search?q=python+tutorial", "/docs",
   "/settings", "/profile", "/notifications", "/about"]

/-- The fixed visit-count distribution `[1, 2, 3, 5, 10]` with weights
`[50, 25, 15, 7, 3]`. -/
def visitCountWeights : List (ℕ × ℕ) :=
  [(1, 50), (2, 25), (3, 15), (5, 7), (10, 3)]

def microsPerDay : ℤ := 86400000000

/-- The fixed title table of `_generate_page_title`, in dict order. -/
def titlesTable : List (String × String) :=
  [("github.com", "GitHub: Where the world builds software"),
   ("stackoverflow.com", "Stack Overflow - Where Developers Learn"),
   ("linkedin.com", "LinkedIn: Log In or Sign Up"),
   ("amazon.com", "Amazon.com: Online Shopping"),
   ("youtube.com", "YouTube"),
   ("gmail.com", "Gmail - Email by Google"),
   ("netflix.com", "Netflix - Watch TV Shows Online"),
   ("reddit.com", "Reddit - Dive into anything")]

/-- First title whose key occurs as a substring of the site. -/
def firstTitleMatch : List (String × String) → String → Option String
  | [], _ => none
  | (k, v) :: rest, site =>
    if containsC site.data k.data then some v else firstTitleMatch rest site

/-- `_generate_page_title`. -/
def generate_page_title (site _path : String) : String :=
  match firstTitleMatch titlesTable site with
  | some t => t
  | none => String.mk (pyCapitalize ((splitDot site.data).headD [])) ++ " - Home"

/-- One random draw per sampling point per loop iteration. -/
structure Draws where
  cat : ℕ → ℕ
  site : ℕ → ℕ
  path : ℕ → ℕ
  day : ℕ → ℕ
  cnt : ℕ → ℕ

/-- Python dict lookup `COMMON_WEBSITES[category]`; KeyError is `none`. -/
def lookupCat : List (String × List String) → String → Option (List String)
  | [], _ => none
  | (k, v) :: rest, key => if k = key then some v else lookupCat rest key

/-- One iteration of the `generate_browsing_history` loop. `now` is
`datetime.now()`; the window start is 90 days earlier; `random_date`
adds `randrange(90)` whole days to the window start. -/
def historyEvent (catalog : List (String × List String)) (now : ℤ) (d : Draws)
    (i : ℕ) : Option ActivityEvent := do
  let category ← pyChoices siteWeights (d.cat i)
  let sites ← lookupCat catalog category
  let site ← pyChoice sites (d.site i)
  let path ← pyChoice pathChoices (d.path i)
  let visitCount ← pyChoices visitCountWeights (d.cnt i)
  pure { url := "https://" ++ site ++ path,
         title := generate_page_title site path,
         visitTime := now - 90 * microsPerDay
           + (pyRandrange 90 (d.day i) : ℤ) * microsPerDay,
         visitCount := visitCount,
         typedCount := if 5 < visitCount then 1 else 0 }

/-- `generate_browsing_history`: build `numEntries` events, then sort
ascending by visit time.  Python's `list.sort` is a stable sort, and a
stable sort's output is uniquely determined by the comparison, so
insertion sort is an exact model. -/
def generate_browsing_history (catalog : List (String × List String))
    (now : ℤ) (d : Draws) (numEntries : ℕ) : Option (List ActivityEvent) := do
  let history ← (List.range numEntries).mapM (historyEvent catalog now d)
  pure (history.insertionSort (fun a b => a.visitTime ≤ b.visitTime))

/-! ### Store encoders -/

/-- A row of the Chromium `urls` table. -/
structure UrlsRow where
  id : ℕ
  url : String
  title : String
  visit_count : ℕ
  typed_count : ℕ
  last_visit_time : ℤ
  hidden : ℕ
deriving DecidableEq

/-- A row of the Chromium `visits` table. -/
structure VisitsRow where
  id : ℕ
  url : ℕ
  visit_time : ℤ
  from_visit : ℕ
  transition : ℕ
  segment_id : Option ℕ
  visit_duration : ℤ
deriving DecidableEq

/-- The Chromium-family History store. -/
structure ChromiumDb where
  urls : List UrlsRow
  visits : List VisitsRow
deriving DecidableEq

/-- The insertion loop of `_write_chromium_history_db` over the fresh empty
tables: ids from `enumerate(history, 1)`, one `urls` row and one `visits`
row per event.  `dur i` is the draw for event `i`'s
`random.randint(5, 180)` visit duration. -/
def chromiumTables (history : List ActivityEvent) (dur : ℕ → ℕ) : ChromiumDb :=
  { urls := (List.enumFrom 1 history).map fun p =>
      { id := p.1, url := p.2.url, title := p.2.title,
        visit_count := p.2.visitCount, typed_count := p.2.typedCount,
        last_visit_time := chrome_timestamp p.2.visitTime, hidden := 0 }
    visits := (List.enumFrom 1 history).map fun p =>
      { id := p.1, url := p.1,
        visit_time := chrome_timestamp p.2.visitTime,
        from_visit := 0, transition := 805306368, segment_id := none,
        visit_duration := (pyRandint 5 180 (dur p.1) : ℤ) * 1000000 } }

/-- A row of the Firefox `moz_places` table. -/
structure PlacesRow where
  id : ℕ
  url : String
  title : String
  rev_host : String
  visit_count : ℕ
  hidden : ℕ
  typed : ℕ
  frecency : ℕ
  last_visit_date : ℤ
deriving DecidableEq

/-- A row of the Firefox `moz_historyvisits` table. -/
structure HistoryVisitsRow where
  id : ℕ
  from_visit : ℕ
  place_id : ℕ
  visit_date : ℤ
  visit_type : ℕ
  session : ℕ
deriving DecidableEq

/-- The Gecko-family places.sqlite store. -/
structure FirefoxDb where
  places : List PlacesRow
  visits : List HistoryVisitsRow
deriving DecidableEq

/-- The insertion loop of `_write_firefox_history_db` over the fresh empty
tables. -/
def firefoxTables (history : List ActivityEvent) (tzOffset : ℤ) : FirefoxDb :=
  { places := (List.enumFrom 1 history).map fun p =>
      { id := p.1, url := p.2.url, title := p.2.title,
        rev_host := revHost p.2.url,
        visit_count := p.2.visitCount, hidden := 0, typed := p.2.typedCount,
        frecency := p.2.visitCount * 100,
        last_visit_date := firefox_timestamp p.2.visitTime tzOffset }
    visits := (List.enumFrom 1 history).map fun p =>
      { id := p.1, from_visit := 0, place_id := p.1,
        visit_date := firefox_timestamp p.2.visitTime tzOffset,
        visit_type := 1, session := 0 } }

/-- Filesystem fragment mapping paths to Chromium stores. -/
def ChromiumFs : Type := String → Option ChromiumDb

/-- Filesystem fragment mapping paths to Firefox stores. -/
def FirefoxFs : Type := String → Option FirefoxDb

/-- `_write_chromium_history_db` as a filesystem transformer: unlink any
existing file at the db path, then write the freshly built tables. -/
def write_chromium_history_db (fs : ChromiumFs) (history : List ActivityEvent)
    (dur : ℕ → ℕ) (profilePath fileName : String) : ChromiumFs :=
  let dbPath := profilePath ++ "/" ++ fileName
  let afterUnlink : ChromiumFs := fun p => if p = dbPath then none else fs p
  fun p => if p = dbPath then some (chromiumTables history dur) else afterUnlink p

/-- `_write_firefox_history_db` as a filesystem transformer. -/
def write_firefox_history_db (fs : FirefoxFs) (history : List ActivityEvent)
    (tzOffset : ℤ) (profilePath : String) : FirefoxFs :=
  let dbPath := profilePath ++ "/" ++ "places.sqlite"
  let afterUnlink : FirefoxFs := fun p => if p = dbPath then none else fs p
  fun p => if p = dbPath then some (firefoxTables history tzOffset) else afterUnlink p

/-- The entries rendered by `_write_history_summary`: Python
`history[-50:]`, the final `min 50 n` events in timeline order.  The
fixed text around each rendered entry is not modelled; the claims are
about which events get listed. -/
def write_history_summary (history : List ActivityEvent) : List ActivityEvent :=
  history.drop (history.length - 50)

/-! ### Credential Deriver (`generate_saved_passwords`) -/

/-- One value of the credential map `FAKE_CREDENTIALS`: optional username
and email fields plus a mandatory password. -/
structure CredInfo where
  username : Option String
  email : Option String
  password : String
deriving DecidableEq

/-- One saved-password record. -/
structure PasswordEntry where
  url : String
  username : Option String
  password : String
  date_created : ℤ
  times_used : ℕ
deriving DecidableEq

/-- `generate_saved_passwords`: one entry per credential-map item in dict
order; `creds.get("username", creds.get("email"))` is username-if-present
else email; `dDay i` and `dUse i` are the draws for `randint(30, 500)`
and `randint(5, 100)` of item `i`. -/
def generate_saved_passwords (credMap : List (String × CredInfo)) (now : ℤ)
    (dDay dUse : ℕ → ℕ) : List PasswordEntry :=
  (List.enum credMap).map fun p =>
    { url := "https://" ++ p.2.1,
      username := p.2.2.username <|> p.2.2.email,
      password := p.2.2.password,
      date_created := now - (pyRandint 30 500 (dDay p.1) : ℤ) * microsPerDay,
      times_used := pyRandint 5 100 (dUse p.1) }

/-! ## Claims -/

/-- C5, counterexample.  The claim asserts the Chromium codec returns the
exactly truncated microsecond count for every representable instant.  One
microsecond past 2024-01-01T00:00:00 the float pipeline rounds up: the
code returns 13348540800000002 where the exact count is 13348540800000001. -/
theorem claim_C5_counterexample :
    chrome_timestamp 1704067200000001 ≠ 1704067200000001 + epoch1601Micros := by
  have hval : chrome_timestamp 1704067200000001 = 13348540800000002 := by
    simp only [chrome_timestamp]
    have hD : ((1704067200000001 + epoch1601Micros : ℤ) : ℚ) = 13348540800000001 := by
      norm_num [epoch1601Micros]
    rw [hD]
    have h1 : rnd ((13348540800000001 : ℚ) / 1000000) = 6998479758950401 / 524288 := by
      rw [rnd_of_nonneg (by norm_num)]
      apply rndPos_eval _ _ 33 6998479758950401
      · apply floorLog2_eval _ 13348540800 33 (by norm_num)
        · rw [Nat.floor_eq_iff (by norm_num)]
          norm_num
        · exact Nat.log_eq_of_pow_le_of_lt_pow (by norm_num) (by norm_num)
      · have := rne_eq_high ((13348540800000001 : ℚ) / 1000000 * (2 : ℚ) ^ ((52 : ℤ) - 33))
          6998479758950400 ?_ ?_
        · rw [this]
          norm_num
        · rw [Int.floor_eq_iff]
          constructor <;> norm_num
        · norm_num
      · norm_num
    rw [h1]
    have h2 : rnd ((6998479758950401 : ℚ) / 524288 * 1000000) = 13348540800000002 := by
      rw [rnd_of_nonneg (by norm_num)]
      apply rndPos_eval _ _ 53 6674270400000001
      · apply floorLog2_eval _ 13348540800000001 53 (by norm_num)
        · rw [Nat.floor_eq_iff (by norm_num)]
          norm_num
        · exact Nat.log_eq_of_pow_le_of_lt_pow (by norm_num) (by norm_num)
      · have := rne_eq_high
          ((6998479758950401 : ℚ) / 524288 * 1000000 * (2 : ℚ) ^ ((52 : ℤ) - 53))
          6674270400000000 ?_ ?_
        · rw [this]
          norm_num
        · rw [Int.floor_eq_iff]
          constructor <;> norm_num
        · norm_num
      · norm_num
    rw [h2]
    exact_mod_cast (by unfold itrunc; rw [if_neg (by norm_num), Int.floor_intCast] :
      itrunc ((13348540800000002 : ℤ) : ℚ) = 13348540800000002)
  rw [hval]
  norm_num [epoch1601Micros]

/-- C5, amended.  `chrome_timestamp` equals the exact microsecond count
since 1601-01-01T00:00:00 for every whole-second instant (microsecond
field zero) with magnitude below `2^59` microseconds — a range beyond
every representable `datetime` — so in particular the closed-form check
at 2024-01-01T00:00:00 holds to the microsecond; with a nonzero
sub-second component the float pipeline can be off by one microsecond. -/
theorem claim_C5_amended (t : ℤ)
    (h1 : (t + epoch1601Micros) % 1000000 = 0)
    (h2 : (t + epoch1601Micros).natAbs < 2 ^ 59) :
    chrome_timestamp t = t + epoch1601Micros :=
  chrome_timestamp_exact t h1 h2

/-- C5, witness: encoding 2024-01-01T00:00:00 yields exactly the
closed-form 1601-epoch microsecond count. -/
theorem claim_C5_witness :
    chrome_timestamp 1704067200000000 = 13348540800000000 := by
  have h := claim_C5_amended 1704067200000000 (by decide) (by decide)
  rw [h]
  norm_num [epoch1601Micros]

/-- C4, counterexample.  The claim asserts `firefox_timestamp` returns the
Unix-epoch microsecond count independent of the environment's timezone.
Under a UTC+1 environment (offset 3600 s) the naive instant
2024-01-01T00:00:00 encodes to 1704063600000000, not its Unix-epoch
count 1704067200000000. -/
theorem claim_C4_counterexample :
    firefox_timestamp 1704067200000000 3600 ≠ 1704067200000000 := by
  have h := firefox_timestamp_exact 1704067200000000 3600 (by decide) (by decide)
  rw [h]
  norm_num

/-- C4, amended.  `firefox_timestamp` interprets the naive instant in the
environment's local timezone: for every whole-second instant within
float-exact range it returns the Unix-epoch microsecond count minus the
local UTC offset in microseconds, so it equals the exact Unix-epoch count
precisely when the environment offset is zero (e.g. TZ=UTC). -/
theorem claim_C4_amended (t tzOffset : ℤ)
    (h1 : t % 1000000 = 0)
    (h2 : (t - tzOffset * 1000000).natAbs < 2 ^ 59) :
    firefox_timestamp t tzOffset = t - tzOffset * 1000000 :=
  firefox_timestamp_exact t tzOffset h1 h2

/-- C4, witness: with a zero offset, 2024-01-01T00:00:00 encodes to its
exact Unix-epoch microsecond count. -/
theorem claim_C4_witness :
    firefox_timestamp 1704067200000000 0 = 1704067200000000 := by
  have h := claim_C4_amended 1704067200000000 0 (by decide) (by decide)
  rw [h]
  norm_num

/-- A two-event timeline sharing one URL, for exercising the Chromium
encoder's per-event row insertion. -/
def c1History : List ActivityEvent :=
  [⟨"https://github.com", "GitHub: Where the world builds software", 1704067200000000, 1, 0⟩,
   ⟨"https://github.com", "GitHub: Where the world builds software", 1704153600000000, 1, 0⟩]

/-- The spec's end-to-end scenario: three github.com events with visit
counts 1, 2, 1 and one gmail.com event with visit count 5. -/
def c2History : List ActivityEvent :=
  [⟨"https://github.com", "GitHub: Where the world builds software", 1704067200000000, 1, 0⟩,
   ⟨"https://github.com", "GitHub: Where the world builds software", 1704153600000000, 2, 0⟩,
   ⟨"https://github.com", "GitHub: Where the world builds software", 1704240000000000, 1, 0⟩,
   ⟨"https://gmail.com", "Gmail - Email by Google", 1704326400000000, 5, 0⟩]

/-- C1, counterexample.  The claim asserts one urls row per distinct URL.
A two-event timeline for the same URL produces two urls rows for it. -/
theorem claim_C1_counterexample :
    ((chromiumTables c1History (fun _ => 0)).urls.filter
      (fun r => r.url == "https://github.com")).length ≠ 1 := by
  decide

/-- C1, amended.  `_write_chromium_history_db` inserts one urls row per
timeline event — so a URL occurring in k events yields k rows — with the
row's visit_count and typed_count copied verbatim from that event rather
than recomputed; every visits row still references an existing urls row
(the one created for the same event). -/
theorem claim_C1_amended (history : List ActivityEvent) (dur : ℕ → ℕ) :
    (chromiumTables history dur).urls.length = history.length ∧
    (∀ i (hi : i < (chromiumTables history dur).urls.length)
       (hi' : i < history.length),
       ((chromiumTables history dur).urls.get ⟨i, hi⟩).id = i + 1 ∧
       ((chromiumTables history dur).urls.get ⟨i, hi⟩).url
         = (history.get ⟨i, hi'⟩).url ∧
       ((chromiumTables history dur).urls.get ⟨i, hi⟩).visit_count
         = (history.get ⟨i, hi'⟩).visitCount ∧
       ((chromiumTables history dur).urls.get ⟨i, hi⟩).typed_count
         = (history.get ⟨i, hi'⟩).typedCount) ∧
    (∀ v ∈ (chromiumTables history dur).visits,
       ∃ u ∈ (chromiumTables history dur).urls, u.id = v.url) := by
  refine ⟨by simp [chromiumTables], ?_, ?_⟩
  · intro i hi hi'
    simp only [chromiumTables, List.get_eq_getElem, List.getElem_map,
      List.getElem_enumFrom]
    exact ⟨by omega, by trivial, by trivial, by trivial⟩
  · intro v hv
    have hv' : v ∈ (List.enumFrom 1 history).map (fun p =>
        ({ id := p.1, url := p.1,
           visit_time := chrome_timestamp p.2.visitTime,
           from_visit := 0, transition := 805306368, segment_id := none,
           visit_duration := (pyRandint 5 180 (dur p.1) : ℤ) * 1000000 } : VisitsRow)) := hv
    obtain ⟨p, hmem, rfl⟩ := List.mem_map.mp hv'
    exact ⟨_, List.mem_map.mpr ⟨p, hmem, rfl⟩, rfl⟩

/-- C1, witness: on the two-event timeline the urls table has two rows and
row 2 copies the second event's URL. -/
theorem claim_C1_witness :
    (chromiumTables c1History (fun _ => 0)).urls.length = 2 ∧
    ((chromiumTables c1History (fun _ => 0)).urls.get ⟨1, by decide⟩).url
      = "https://github.com" :=
  ⟨((claim_C1_amended c1History (fun _ => 0)).1).trans (by decide),
   (((claim_C1_amended c1History (fun _ => 0)).2.1 1 (by decide) (by decide)).2.1).trans
     (by decide)⟩

/-- C2, counterexample.  On the spec's scenario the Chromium encoder
produces four urls rows, not the claimed two. -/
theorem claim_C2_counterexample :
    (chromiumTables c2History (fun _ => 0)).urls.length ≠ 2 := by
  decide

/-- C2, amended.  The scenario timeline produces a urls table with exactly
4 rows — github.com appearing in three rows with visit counts 1, 2, 1
(summing to the spec's aggregate 4) and gmail.com in one row with count
5 — and a visits table with exactly 4 rows. -/
theorem claim_C2_amended :
    (chromiumTables c2History (fun _ => 0)).urls.length = 4 ∧
    (chromiumTables c2History (fun _ => 0)).visits.length = 4 ∧
    ((chromiumTables c2History (fun _ => 0)).urls.filter
        (fun r => r.url == "https://github.com")).map (fun r => r.visit_count)
      = [1, 2, 1] ∧
    (((chromiumTables c2History (fun _ => 0)).urls.filter
        (fun r => r.url == "https://github.com")).map (fun r => r.visit_count)).sum
      = 4 ∧
    ((chromiumTables c2History (fun _ => 0)).urls.filter
        (fun r => r.url == "https://gmail.com")).map (fun r => r.visit_count)
      = [5] := by
  decide

/-! ### Reverse-host lemmas for C3 -/

theorem splitDoubleSlash_https (rest : List Char) :
    splitDoubleSlash ('h' :: 't' :: 't' :: 'p' :: 's' :: ':' :: '/' :: '/' :: rest)
      = ['h', 't', 't', 'p', 's', ':'] :: splitDoubleSlash rest := rfl

theorem splitDoubleSlash_no_slash (l : List Char) (h : ∀ c ∈ l, c ≠ '/') :
    splitDoubleSlash l = [l] := by
  induction l using splitDoubleSlash.induct with
  | case1 => rfl
  | case2 c => rfl
  | case3 c c2 rest hif ih =>
    exact absurd hif.1 (h c (by simp))
  | case4 c c2 rest hif ih =>
    rw [splitDoubleSlash, if_neg hif, ih (fun a ha => h a (by simp [ha]))]
    rfl

/-- On a URL of the form `https://` + slash-free remainder, the encoder's
rev_host coincides with the spec's host-label reversal. -/
theorem revHost_eq_specRevHost (rest : List Char) (h : ∀ c ∈ rest, c ≠ '/') :
    revHost (String.mk ("https://".data ++ rest))
      = specRevHost (String.mk ("https://".data ++ rest)) := by
  unfold revHost specRevHost
  have hcons : (String.mk ("https://".data ++ rest)).data
      = 'h' :: 't' :: 't' :: 'p' :: 's' :: ':' :: '/' :: '/' :: rest := rfl
  rw [hcons, splitDoubleSlash_https, splitDoubleSlash_no_slash rest h]
  have htw : rest.takeWhile (· ≠ '/') = rest :=
    List.takeWhile_eq_self_iff.mpr (by intro a ha; simpa using h a ha)
  have hlast : ((['h', 't', 't', 'p', 's', ':'] : List Char) :: [rest]).getLastD []
      = rest := rfl
  rw [hlast, htw]

/-- C3, counterexample.  For a URL with a path the encoder reverses the
dot-segments of everything after `//`, keeping the path attached: the
places row carries "com/dashboard.github" where the spec's host-label
reversal is "com.github". -/
theorem claim_C3_counterexample :
    (firefoxTables [⟨"https://github.com/dashboard",
        "GitHub: Where the world builds software", 1704067200000000, 1, 0⟩] 0).places.map
        (fun r => r.rev_host) = ["com/dashboard.github"] ∧
    specRevHost "https://github.com/dashboard" = "com.github" := by
  decide

/-- C3, amended.  For every event whose URL is `https://` followed by a
slash-free remainder (i.e. an empty path), the places row's rev_host is
the URL's host with its dot-separated labels reversed and dot-joined;
with a non-empty path the trailing path stays attached to the reversal
(see the counterexample). -/
theorem claim_C3_amended (history : List ActivityEvent) (tzOffset : ℤ)
    (h : ∀ e ∈ history, ∃ rest : List Char, (∀ c ∈ rest, c ≠ '/') ∧
         e.url = String.mk ("https://".data ++ rest)) :
    (firefoxTables history tzOffset).places.map (fun r => r.rev_host)
      = history.map (fun e => specRevHost e.url) := by
  apply List.ext_getElem
  · simp [firefoxTables]
  · intro i h1 h2
    have hlen : i < history.length := by
      simpa [firefoxTables] using h1
    simp only [firefoxTables, List.getElem_map, List.getElem_enumFrom]
    obtain ⟨rest, hr, hurl⟩ := h history[i] (List.getElem_mem hlen)
    rw [hurl]
    exact revHost_eq_specRevHost rest hr

/-- A one-event timeline with a path-free URL. -/
def c3History : List ActivityEvent :=
  [⟨"https://github.com", "GitHub: Where the world builds software",
    1704067200000000, 1, 0⟩]

/-- C3, witness: on a path-free URL the places row's rev_host is exactly
the spec's host-label reversal. -/
theorem claim_C3_witness :
    (firefoxTables c3History 0).places.map (fun r => r.rev_host)
      = c3History.map (fun e => specRevHost e.url) :=
  claim_C3_amended c3History 0 (by
    intro e he
    simp only [c3History, List.mem_singleton] at he
    subst he
    exact ⟨"github.com".data, by decide, by decide⟩)

/-- C6: every timeline `generate_browsing_history` returns is sorted
non-decreasing by visit timestamp, for every catalog, clock, draw
sequence and event count. -/
theorem claim_C6 (catalog : List (String × List String)) (now : ℤ) (d : Draws)
    (numEntries : ℕ) (hist : List ActivityEvent)
    (h : generate_browsing_history catalog now d numEntries = some hist) :
    hist.Sorted (fun a b => a.visitTime ≤ b.visitTime) := by
  unfold generate_browsing_history at h
  cases hmap : (List.range numEntries).mapM (historyEvent catalog now d) with
  | none =>
    rw [hmap] at h
    simp at h
  | some l =>
    rw [hmap] at h
    simp only [Option.bind_eq_bind, Option.some_bind, Option.pure_def,
      Option.some.injEq] at h
    subst h
    haveI : IsTotal ActivityEvent (fun a b => a.visitTime ≤ b.visitTime) :=
      ⟨fun a b => le_total _ _⟩
    haveI : IsTrans ActivityEvent (fun a b => a.visitTime ≤ b.visitTime) :=
      ⟨fun _ _ _ hab hbc => le_trans hab hbc⟩
    exact List.sorted_insertionSort _ _

/-- A one-category catalog and all-zero draws for concrete runs. -/
def c6Catalog : List (String × List String) := [("work", ["github.com"])]

/-- All-zero draw streams. -/
def c6Draws : Draws := ⟨fun _ => 0, fun _ => 0, fun _ => 0, fun _ => 0, fun _ => 0⟩

/-- C6, witness: a concrete two-event run returns this timeline, and the
theorem yields its sortedness. -/
theorem claim_C6_witness :
    generate_browsing_history c6Catalog 0 c6Draws 2
      = some [⟨"https://github.com", "GitHub: Where the world builds software",
               -7776000000000, 1, 0⟩,
              ⟨"https://github.com", "GitHub: Where the world builds software",
               -7776000000000, 1, 0⟩] ∧
    List.Sorted (fun a b : ActivityEvent => a.visitTime ≤ b.visitTime)
      [⟨"https://github.com", "GitHub: Where the world builds software",
        -7776000000000, 1, 0⟩,
       ⟨"https://github.com", "GitHub: Where the world builds software",
        -7776000000000, 1, 0⟩] :=
  ⟨by decide, claim_C6 c6Catalog 0 c6Draws 2 _ (by decide)⟩

/-- A catalog whose "email" category has an empty site list. -/
def c8Catalog : List (String × List String) :=
  [("work", ["github.com"]), ("email", [])]

/-- Draws that always select the "work" category. -/
def c8DrawsWork : Draws := ⟨fun _ => 0, fun _ => 0, fun _ => 0, fun _ => 0, fun _ => 0⟩

/-- Draws that always select the "email" category (bucket 98 of 100). -/
def c8DrawsEmail : Draws := ⟨fun _ => 98, fun _ => 0, fun _ => 0, fun _ => 0, fun _ => 0⟩

/-- C8, counterexample.  The claim says an empty category site list is
detected before synthesis begins and signalled as fatal.  It is not: a
three-event run against a catalog whose "email" category is empty
completes successfully when the draws never select that category. -/
theorem claim_C8_counterexample :
    (generate_browsing_history c8Catalog 0 c8DrawsWork 3).isSome = true := by
  decide

/-- C8, amended.  `generate_browsing_history` performs no up-front
validation: with an empty category site list the run completes silently
whenever the draws avoid that category, and when the empty category is
drawn the failure (random.choice's IndexError) occurs at that event
during generation — here already at event 0 — not before synthesis
begins.  (The time window is hard-coded to the 90 days before the
current clock, so an empty window cannot arise at all.) -/
theorem claim_C8_amended :
    (generate_browsing_history c8Catalog 0 c8DrawsWork 3).isSome = true ∧
    generate_browsing_history c8Catalog 0 c8DrawsEmail 1 = none ∧
    historyEvent c8Catalog 0 c8DrawsEmail 0 = none := by
  refine ⟨by decide, by decide, by decide⟩

/-- `random.randint(lo, hi)` stays within its inclusive bounds. -/
theorem pyRandint_bounds (lo hi r : ℕ) (h : lo ≤ hi) :
    lo ≤ pyRandint lo hi r ∧ pyRandint lo hi r ≤ hi := by
  unfold pyRandint
  have := Nat.mod_lt r (show 0 < hi - lo + 1 by omega)
  omega

/-- C7: `generate_saved_passwords` yields exactly one record per
credential-map item, in order — so the output count equals the key count
with no omissions or duplicates — with the principal username-if-present
else email, the secret copied verbatim, a creation time 30 to 500 days
before the clock, and a usage counter between 5 and 100. -/
theorem claim_C7 (credMap : List (String × CredInfo)) (now : ℤ)
    (dDay dUse : ℕ → ℕ) :
    (generate_saved_passwords credMap now dDay dUse).length = credMap.length ∧
    ∀ i (hi : i < (generate_saved_passwords credMap now dDay dUse).length)
      (hi' : i < credMap.length),
      ((generate_saved_passwords credMap now dDay dUse).get ⟨i, hi⟩).url
        = "https://" ++ (credMap.get ⟨i, hi'⟩).1 ∧
      ((generate_saved_passwords credMap now dDay dUse).get ⟨i, hi⟩).username
        = ((credMap.get ⟨i, hi'⟩).2.username <|> (credMap.get ⟨i, hi'⟩).2.email) ∧
      ((generate_saved_passwords credMap now dDay dUse).get ⟨i, hi⟩).password
        = (credMap.get ⟨i, hi'⟩).2.password ∧
      (∃ days : ℕ, 30 ≤ days ∧ days ≤ 500 ∧
        ((generate_saved_passwords credMap now dDay dUse).get ⟨i, hi⟩).date_created
          = now - (days : ℤ) * microsPerDay) ∧
      5 ≤ ((generate_saved_passwords credMap now dDay dUse).get ⟨i, hi⟩).times_used ∧
      ((generate_saved_passwords credMap now dDay dUse).get ⟨i, hi⟩).times_used ≤ 100 := by
  constructor
  · simp [generate_saved_passwords]
  · intro i hi hi'
    simp only [generate_saved_passwords, List.get_eq_getElem, List.getElem_map,
      List.enum, List.getElem_enumFrom]
    refine ⟨by trivial, by trivial, by trivial,
      ⟨pyRandint 30 500 (dDay (0 + i)),
        (pyRandint_bounds 30 500 (dDay (0 + i)) (by norm_num)).1,
        (pyRandint_bounds 30 500 (dDay (0 + i)) (by norm_num)).2, by trivial⟩,
      (pyRandint_bounds 5 100 (dUse (0 + i)) (by norm_num)).1,
      (pyRandint_bounds 5 100 (dUse (0 + i)) (by norm_num)).2⟩

/-- A one-item credential map. -/
def c7Map : List (String × CredInfo) :=
  [("github.com", ⟨some "jmathew", some "john.mathew@beingMalicious.com",
    "SecureP@ss123!"⟩)]

/-- C7, witness: on a one-item map the deriver yields one record copying
the password verbatim and choosing the username as principal. -/
theorem claim_C7_witness :
    (generate_saved_passwords c7Map 0 (fun _ => 0) (fun _ => 0)).length = 1 ∧
    ((generate_saved_passwords c7Map 0 (fun _ => 0) (fun _ => 0)).get
      ⟨0, by decide⟩).password = "SecureP@ss123!" ∧
    ((generate_saved_passwords c7Map 0 (fun _ => 0) (fun _ => 0)).get
      ⟨0, by decide⟩).username = some "jmathew" :=
  ⟨((claim_C7 c7Map 0 (fun _ => 0) (fun _ => 0)).1).trans (by decide),
   (((claim_C7 c7Map 0 (fun _ => 0) (fun _ => 0)).2 0 (by decide)
      (by decide)).2.2.1).trans (by decide),
   (((claim_C7 c7Map 0 (fun _ => 0) (fun _ => 0)).2 0 (by decide)
      (by decide)).2.1).trans (by decide)⟩

/-- C9: both encoders recreate the store file: running an encoder twice
against the same profile path leaves exactly the state of a single run on
the second input — the first run's rows leave no residue anywhere in the
filesystem — and the target path holds exactly the second run's tables. -/
theorem claim_C9 (fsC : ChromiumFs) (fsF : FirefoxFs)
    (h1 h2 : List ActivityEvent) (d1 d2 : ℕ → ℕ) (off1 off2 : ℤ)
    (profilePath fileName : String) :
    write_chromium_history_db
        (write_chromium_history_db fsC h1 d1 profilePath fileName)
        h2 d2 profilePath fileName
      = write_chromium_history_db fsC h2 d2 profilePath fileName ∧
    write_chromium_history_db
        (write_chromium_history_db fsC h1 d1 profilePath fileName)
        h2 d2 profilePath fileName (profilePath ++ "/" ++ fileName)
      = some (chromiumTables h2 d2) ∧
    write_firefox_history_db
        (write_firefox_history_db fsF h1 off1 profilePath) h2 off2 profilePath
      = write_firefox_history_db fsF h2 off2 profilePath ∧
    write_firefox_history_db
        (write_firefox_history_db fsF h1 off1 profilePath) h2 off2 profilePath
        (profilePath ++ "/" ++ "places.sqlite")
      = some (firefoxTables h2 off2) := by
  refine ⟨?_, ?_, ?_, ?_⟩
  · funext p
    by_cases hp : p = profilePath ++ "/" ++ fileName <;>
      simp [write_chromium_history_db, hp]
  · simp [write_chromium_history_db]
  · funext p
    by_cases hp : p = profilePath ++ "/" ++ "places.sqlite" <;>
      simp [write_firefox_history_db, hp]
  · simp [write_firefox_history_db]

/-- C10: the summary lists exactly the final `min 50 n` events of the
timeline, in order (entry j of the summary is event `n - 50 + j`), while
the relational store keeps a row for every event, earlier ones included. -/
theorem claim_C10 (history : List ActivityEvent) (dur : ℕ → ℕ) :
    (write_history_summary history).length = min 50 history.length ∧
    (∀ j (hj : j < (write_history_summary history).length)
       (hj' : history.length - 50 + j < history.length),
       (write_history_summary history).get ⟨j, hj⟩
         = history.get ⟨history.length - 50 + j, hj'⟩) ∧
    history.take (history.length - 50) ++ write_history_summary history
      = history ∧
    (chromiumTables history dur).urls.length = history.length ∧
    (∀ i (hi : i < (chromiumTables history dur).urls.length)
       (hi' : i < history.length),
       ((chromiumTables history dur).urls.get ⟨i, hi⟩).url
         = (history.get ⟨i, hi'⟩).url) := by
  refine ⟨?_, ?_, List.take_append_drop _ _, by simp [chromiumTables], ?_⟩
  · simp only [write_history_summary, List.length_drop]
    omega
  · intro j hj hj'
    simp only [write_history_summary, List.get_eq_getElem, List.getElem_drop]
  · intro i hi hi'
    simp only [chromiumTables, List.get_eq_getElem, List.getElem_map,
      List.getElem_enumFrom]

/-- A 51-event timeline, to exercise the 50-entry cut-off. -/
def c10History : List ActivityEvent :=
  List.replicate 51 ⟨"https://github.com",
    "GitHub: Where the world builds software", 1704067200000000, 1, 0⟩

/-- C10, witness: with 51 events the summary lists 50, its first entry is
event 1 (the second event), and the store keeps all 51 rows. -/
theorem claim_C10_witness :
    (write_history_summary c10History).length = min 50 c10History.length ∧
    (write_history_summary c10History).get ⟨0, by decide⟩
      = c10History.get ⟨1, by decide⟩ ∧
    (chromiumTables c10History (fun _ => 0)).urls.length = c10History.length :=
  ⟨(claim_C10 c10History (fun _ => 0)).1,
   (claim_C10 c10History (fun _ => 0)).2.1 0 (by decide) (by decide),
   (claim_C10 c10History (fun _ => 0)).2.2.2.1⟩

end SandboxPopulator
